import Mathlib

/-!
The example program find_infohash_and_wait.

A shallow embedding of `examples/find_infohash_and_wait/main.go`.

The program is glue around the `dht` library, the `flag`, `fmt`, `os`, `time`,
`net/http` packages and the `log4go` logger.  None of those is part of the file,
so every call the program makes on them is recorded as an `Event` in the order
in which the program text issues it, and the values they hand back
(`flag.Parse`, `DecodeInfoHash`, `NewDHTNode`, `DecodePeerAddress`, the fate of
`http.ListenAndServe`) are parameters collected in `Env`.

Go strings are byte sequences.  Text that is only printed is kept as a Lean
`String`; the infohash and the compact peer addresses, which are binary, are
kept as lists of bytes.
-/

namespace FindInfohashAndWait

/-! ## Constants of the program -/

/-- The constant `httpPortTCP`. -/
def httpPortTCP : Nat := 8080

/-- The constant `dhtPortUDP`. -/
def dhtPortUDP : Nat := 11221

/-- The value `time.Second`, a duration counted in nanoseconds. -/
def Second : Nat := 1000000000

/-! ## Values exchanged with the library -/

/-- A Go string seen as its bytes. -/
abbrev ByteString := List Nat

/-- The named type `dht.InfoHash`, whose underlying type is `string`. -/
structure InfoHash where
  s : ByteString
  deriving DecidableEq, Repr

/-- The conversion `string(ih)`: the same bytes under the type `string`. -/
def InfoHash.toGoString (ih : InfoHash) : ByteString := ih.s

/-- An operand handed to a formatting call. -/
inductive Arg where
  | str (s : String)
  | bytes (b : ByteString)
  | int (n : Nat)
  deriving DecidableEq, Repr

/-- The handler argument of `http.ListenAndServe`; Go's `nil` is `none`. -/
inductive Handler where
  | custom (name : String)
  deriving DecidableEq, Repr

/-- The level `l4g.DEBUG` given to `l4g.AddFilter`. -/
inductive Level where
  | DEBUG
  deriving DecidableEq, Repr

/-! ## A small model of `fmt.Sprintf` -/

/-- One hexadecimal digit, lower case. -/
def hexDigit (n : Nat) : Char :=
  if n % 16 < 10 then Char.ofNat (48 + n % 16) else Char.ofNat (87 + n % 16)

/-- Two hexadecimal digits of one byte. -/
def hexByte (b : Nat) : List Char := [hexDigit (b % 256 / 16), hexDigit (b % 256)]

/-- Rendering of one operand under one verb (`%d`, `%v`, `%x`). -/
def renderArg (verb : Char) : Arg → List Char
  | .str s => if verb = 'x' then (s.data.map fun c => hexByte c.toNat).flatten else s.data
  | .bytes b => if verb = 'x' then (b.map hexByte).flatten else b.map Char.ofNat
  | .int n => if verb = 'x' then Nat.toDigits 16 n else Nat.toDigits 10 n

/-- The scan of the format: a `%` followed by a verb consumes one operand. -/
def sprintfAux : List Char → List Arg → List Char
  | [], _ => []
  | '%' :: v :: rest, a :: as => renderArg v a ++ sprintfAux rest as
  | c :: rest, as => c :: sprintfAux rest as

/-- The call `fmt.Sprintf(format, args...)` for the verbs the program uses. -/
def Sprintf (format : String) (args : List Arg) : String :=
  String.mk (sprintfAux format.data args)

/-! ## Events and outcomes -/

/-- The calls the program makes on its collaborators. -/
inductive Event (Node : Type) where
  | flagParse
  | addFilter (name : String) (lvl : Level)
  | fprintfStderr (format : String) (args : List Arg)
  | printDefaults
  | decodeInfoHash (arg : String)
  | critical (format : String) (args : List Arg)
  | newDHTNode (port : Nat) (numTargetPeers : Nat) (third : Bool)
  | goDoDHT (d : Node)
  | goDrainresults (d : Node)
  | sleep (ns : Nat)
  | peersRequest (d : Node) (ih : ByteString) (announce : Bool)
  | listenAndServe (addr : String) (handler : Option Handler)
  deriving DecidableEq, Repr

/-- How the body of `main` ends. -/
inductive Outcome where
  /-- The call `os.Exit(code)`. -/
  | exit (code : Nat)
  /-- The body ran to its last line and `main` returned. -/
  | returned
  /-- The body is inside a call that never returns. -/
  | blocked
  /-- A run-time panic (index out of range). -/
  | panicked
  deriving DecidableEq, Repr

/-- The trace of a run of `main` and the way it ended. -/
structure Run (Node : Type) where
  trace : List (Event Node)
  outcome : Outcome

/-- The collaborators of the program.

`FlagParse` is `flag.Parse()` run on `os.Args[1:]`.  The command-line flag set
exits the process on a parse error, so the call either ends the process with a
status (`.error code`) or returns and leaves the positional arguments that
`flag.Args()` then reports (`.ok args`).

`ListenAndServe addr = none` stands for a server that keeps serving and never
returns; `some err` for a call that gives up and returns the error `err`
(it never returns without one). -/
structure Env (Node : Type) where
  FlagParse : List String → Except Nat (List String)
  DecodeInfoHash : String → Except String InfoHash
  NewDHTNode : Nat → Nat → Bool → Except String Node
  DecodePeerAddress : ByteString → String
  ListenAndServe : String → Option Handler → Option String

/-! ## The function `main` -/

/-- The function `main`.  `prog` is `os.Args[0]` and `argv` is `os.Args[1:]`,
the command line that `flag.Parse()` reads. -/
def main {Node : Type} (env : Env Node) (prog : String) (argv : List String) : Run Node :=
  match env.FlagParse argv with
  | .error code => ⟨[.flagParse], .exit code⟩
  | .ok args =>
    let t0 : List (Event Node) := [.flagParse, .addFilter "stdout" .DEBUG]
    if args.length ≠ 1 then
      ⟨t0 ++ [.fprintfStderr "Usage: %v <infohash>\n" [.str prog], .printDefaults], .exit 1⟩
    else
      match args[0]? with
      | none => ⟨t0, .panicked⟩
      | some a =>
        let t1 := t0 ++ [.decodeInfoHash a]
        match env.DecodeInfoHash a with
        | .error err => ⟨t1 ++ [.critical "DecodeInfoHash error: %v\n" [.str err]], .exit 1⟩
        | .ok ih =>
          let targetNumPeers := 5
          let t2 := t1 ++ [.newDHTNode dhtPortUDP targetNumPeers false]
          match env.NewDHTNode dhtPortUDP targetNumPeers false with
          | .error err => ⟨t2 ++ [.critical "NewDHTNode error: %v" [.str err]], .exit 1⟩
          | .ok d =>
            let addr := Sprintf ":%d" [.int httpPortTCP]
            let t3 := t2 ++ [.goDoDHT d, .goDrainresults d, .sleep (5 * Second),
              .peersRequest d ih.toGoString false, .listenAndServe addr none]
            match env.ListenAndServe addr none with
            | none => ⟨t3, .blocked⟩
            | some _ => ⟨t3, .returned⟩

/-! ## The function `drainresults` -/

/-- One value received on `PeersRequestResults`: a `map[InfoHash][]string`,
given as its entries in the order in which the `range` loop visits them. -/
abbrev Batch := List (InfoHash × List ByteString)

/-- What `drainresults` does, call by call. -/
inductive Out where
  | println (s : String)
  | decodePeerAddress (x : ByteString)
  | warn (format : String) (args : List Arg)
  deriving DecidableEq, Repr

/-- The body of the innermost loop, for one peer `x`. -/
def drainPeer (decode : ByteString → String) (x : ByteString) : List Out :=
  [.decodePeerAddress x,
   .warn "==========================> %v" [.str (decode x)],
   .warn "Note that there are many bad nodes that reply to anything you ask, so don't get too excited." [],
   .warn "==========================" []]

/-- The body of the middle loop, for one entry `ih, peers` of a batch. -/
def drainEntry (decode : ByteString → String) (e : InfoHash × List ByteString) : List Out :=
  Out.warn "Found peer(s) for infohash %x:" [.bytes e.1.s] :: (e.2.map (drainPeer decode)).flatten

/-- The body of the outer loop, for one batch `r`. -/
def drainBatch (decode : ByteString → String) (r : Batch) : List Out :=
  (r.map (drainEntry decode)).flatten

/-- The function `drainresults`, run on the batches the channel delivers before
it is closed; the result is what it did up to its return. -/
def drainresults (decode : ByteString → String) (batches : List Batch) : List Out :=
  Out.println "=========================== DHT" :: (batches.map (drainBatch decode)).flatten

/-! ## Observations on traces -/

/-- Whether an event is a call of `NewDHTNode`. -/
def Event.isNewDHTNode {Node : Type} : Event Node → Bool
  | .newDHTNode _ _ _ => true
  | _ => false

/-- Whether an event starts `DoDHT`. -/
def Event.isGoDoDHT {Node : Type} : Event Node → Bool
  | .goDoDHT _ => true
  | _ => false

/-- Whether an event starts `drainresults`. -/
def Event.isGoDrainresults {Node : Type} : Event Node → Bool
  | .goDrainresults _ => true
  | _ => false

/-- Whether an event is a call of `PeersRequest`. -/
def Event.isPeersRequest {Node : Type} : Event Node → Bool
  | .peersRequest _ _ _ => true
  | _ => false

/-- Whether an event is a call of `http.ListenAndServe`. -/
def Event.isListenAndServe {Node : Type} : Event Node → Bool
  | .listenAndServe _ _ => true
  | _ => false

/-- Whether an event touches the DHT or the HTTP server. -/
def Event.touchesNode {Node : Type} (e : Event Node) : Bool :=
  e.isNewDHTNode || e.isGoDoDHT || e.isGoDrainresults || e.isPeersRequest || e.isListenAndServe

/-- Whether a step of `drainresults` is a call of the logger. -/
def Out.isWarn : Out → Bool
  | .warn _ _ => true
  | _ => false

/-- Whether a step of `drainresults` is a "Found peer(s)" line. -/
def Out.isFound : Out → Bool
  | .warn format _ => format == "Found peer(s) for infohash %x:"
  | _ => false

/-- The peers on which `DecodePeerAddress` was called, in call order. -/
def decoded : List Out → List ByteString
  | [] => []
  | .decodePeerAddress x :: rest => x :: decoded rest
  | _ :: rest => decoded rest

/-- The reports of peer addresses: each call of `DecodePeerAddress` that is
followed at once by the logger call with the address format, paired with the
operands of that logger call, in call order. -/
def reports : List Out → List (ByteString × List Arg)
  | [] => []
  | .decodePeerAddress x :: rest =>
    match rest with
    | .warn format args :: _ =>
      if format = "==========================> %v" then (x, args) :: reports rest else reports rest
    | _ => reports rest
  | _ :: rest => reports rest

/-- The operands of the "Found peer(s)" lines, in call order. -/
def foundOperands : List Out → List (List Arg)
  | [] => []
  | .warn format args :: rest =>
    if format = "Found peer(s) for infohash %x:" then args :: foundOperands rest
    else foundOperands rest
  | _ :: rest => foundOperands rest

/-- The arguments of the calls of `NewDHTNode`, in call order. -/
def newDHTNodeCalls {Node : Type} : List (Event Node) → List (Nat × Nat × Bool)
  | [] => []
  | .newDHTNode port numTargetPeers third :: rest => (port, numTargetPeers, third) :: newDHTNodeCalls rest
  | _ :: rest => newDHTNodeCalls rest

/-- The entries of all the batches, in delivery order. -/
def entries (batches : List Batch) : List (InfoHash × List ByteString) := batches.flatten

/-- The peers of all the entries of all the batches, in delivery order. -/
def allPeers (batches : List Batch) : List ByteString := ((entries batches).map Prod.snd).flatten

/-! ## A concrete environment used for evaluation -/

/-- The value of one hexadecimal digit. -/
def hexVal (c : Char) : Option Nat :=
  if '0' ≤ c ∧ c ≤ '9' then some (c.toNat - 48)
  else if 'a' ≤ c ∧ c ≤ 'f' then some (c.toNat - 87)
  else if 'A' ≤ c ∧ c ≤ 'F' then some (c.toNat - 55)
  else none

/-- The bytes written by a string of hexadecimal digit pairs. -/
def decodeHex : List Char → Option ByteString
  | [] => some []
  | [_] => none
  | hi :: lo :: rest =>
    match hexVal hi, hexVal lo, decodeHex rest with
    | some h, some l, some bs => some ((16 * h + l) :: bs)
    | _, _, _ => none

/-- What the flag package does with an argument that is a flag when no flag of
that name is defined: the help flags end the process with status 0, any other
name with status 2. -/
def undefinedFlag (name : List Char) : Except Nat (List String) :=
  if name.takeWhile (fun c => c ≠ '=') = ['h'] ∨
      name.takeWhile (fun c => c ≠ '=') = ['h', 'e', 'l', 'p'] then .error 0
  else .error 2

/-- The call `flag.Parse()` for a flag set in which no flag is defined: parsing
stops at the first argument that is not a flag, and at `--`. -/
def parseNoFlags : List String → Except Nat (List String)
  | [] => .ok []
  | s :: rest =>
    match s.data with
    | ['-', '-'] => .ok rest
    | '-' :: '-' :: name => undefinedFlag name
    | '-' :: c :: name => undefinedFlag (c :: name)
    | _ => .ok (s :: rest)

/-- A flag set without flags, a decoder that accepts 40 hexadecimal digits, a
node constructor that succeeds, and an HTTP server that fails to bind its
port. -/
def envBusy : Env Nat where
  FlagParse := parseNoFlags
  DecodeInfoHash := fun a =>
    if a.length ≠ 40 then .error "DecodeInfoHash: expected InfoHash len=40"
    else match decodeHex a.data with
      | some bs => .ok ⟨bs⟩
      | none => .error "DecodeInfoHash: invalid hex string"
  NewDHTNode := fun port _ _ => .ok port
  DecodePeerAddress := fun x => toString x
  ListenAndServe := fun _ _ => some "listen tcp :8080: bind: address already in use"

/-- The environment `envBusy` with a server that keeps serving. -/
def envServing : Env Nat := { envBusy with ListenAndServe := fun _ _ => none }

/-- The environment `envBusy` with a node whose socket cannot be set up. -/
def envNoSocket : Env Nat :=
  { envBusy with NewDHTNode := fun _ _ _ => .error "listen udp :11221: bind: address already in use" }

/-- A compact peer address: 127.0.0.1, port 6881. -/
def samplePeer : ByteString := [127, 0, 0, 1, 26, 225]

/-- Two batches from two contacts that report the same peer for the same
infohash. -/
def dupBatches : List Batch :=
  [[(⟨[222, 202, 122, 137, 161, 219, 220, 75, 33, 61, 225, 192, 213, 53, 30, 146, 88, 47, 49, 251]⟩,
      [samplePeer])],
   [(⟨[222, 202, 122, 137, 161, 219, 220, 75, 33, 61, 225, 192, 213, 53, 30, 146, 88, 47, 49, 251]⟩,
      [samplePeer])]]

/-- A well-formed infohash argument. -/
def sampleArg : String := "deca7a89a1dbdc4b213de1c0d5351e92582f31fb"

/-- The twenty bytes written by `sampleArg`. -/
def sampleHash : InfoHash :=
  ⟨[222, 202, 122, 137, 161, 219, 220, 75, 33, 61, 225, 192, 213, 53, 30, 146, 88, 47, 49, 251]⟩

/-! ## The shape of a run of `main` -/

section Shape

variable {Node : Type} (env : Env Node) (prog : String) (argv : List String)

theorem sprintf_addr : Sprintf ":%d" [.int httpPortTCP] = ":8080" := by decide

theorem main_flag_exit (code : Nat) (hp : env.FlagParse argv = .error code) :
    main env prog argv = ⟨[.flagParse], .exit code⟩ := by
  simp [main, hp]

theorem main_usage (args : List String) (hp : env.FlagParse argv = .ok args)
    (h : args.length ≠ 1) :
    main env prog argv =
      ⟨[.flagParse, .addFilter "stdout" .DEBUG,
        .fprintfStderr "Usage: %v <infohash>\n" [.str prog], .printDefaults], .exit 1⟩ := by
  simp [main, hp, h]

theorem main_decode_error (a err : String) (hp : env.FlagParse argv = .ok [a])
    (h : env.DecodeInfoHash a = .error err) :
    main env prog argv =
      ⟨[.flagParse, .addFilter "stdout" .DEBUG, .decodeInfoHash a,
        .critical "DecodeInfoHash error: %v\n" [.str err]], .exit 1⟩ := by
  simp [main, hp, h]

theorem main_node_error (a err : String) (ih : InfoHash) (hp : env.FlagParse argv = .ok [a])
    (h : env.DecodeInfoHash a = .ok ih)
    (hn : env.NewDHTNode dhtPortUDP 5 false = .error err) :
    main env prog argv =
      ⟨[.flagParse, .addFilter "stdout" .DEBUG, .decodeInfoHash a,
        .newDHTNode dhtPortUDP 5 false, .critical "NewDHTNode error: %v" [.str err]], .exit 1⟩ := by
  simp [main, hp, h, hn]

theorem main_started_trace (a : String) (ih : InfoHash) (d : Node)
    (hp : env.FlagParse argv = .ok [a])
    (h : env.DecodeInfoHash a = .ok ih) (hn : env.NewDHTNode dhtPortUDP 5 false = .ok d) :
    (main env prog argv).trace =
      [.flagParse, .addFilter "stdout" .DEBUG, .decodeInfoHash a,
        .newDHTNode dhtPortUDP 5 false, .goDoDHT d, .goDrainresults d, .sleep (5 * Second),
        .peersRequest d ih.s false, .listenAndServe ":8080" none] := by
  simp [main, hp, h, hn, sprintf_addr, InfoHash.toGoString]
  cases env.ListenAndServe ":8080" none <;> simp

theorem main_started_outcome (a : String) (ih : InfoHash) (d : Node)
    (hp : env.FlagParse argv = .ok [a])
    (h : env.DecodeInfoHash a = .ok ih) (hn : env.NewDHTNode dhtPortUDP 5 false = .ok d) :
    (main env prog argv).outcome =
      match env.ListenAndServe ":8080" none with
      | none => .blocked
      | some _ => .returned := by
  simp [main, hp, h, hn, sprintf_addr, InfoHash.toGoString]
  cases env.ListenAndServe ":8080" none <;> simp

theorem length_one {α : Type} (args : List α) (h : args.length = 1) : ∃ a, args = [a] := by
  match args, h with
  | [a], _ => exact ⟨a, rfl⟩

theorem lt_length_of_getElem? {α : Type} (l : List α) (i : Nat) (x : α) (h : l[i]? = some x) :
    i < l.length := by
  by_contra hc
  rw [List.getElem?_eq_none (Nat.le_of_not_lt hc)] at h
  cases h

end Shape

/-! ## Input validation and start-up of `main` -/

section Main

variable {Node : Type}

/-- C1 fails: on the command line `-x`, which has no positional argument,
`flag.Parse()` ends the process with status 2, not 1. -/
theorem main_undefined_flag_exits_two :
    envServing.FlagParse ["-x"] = .error 2 ∧
      (main envServing "find_infohash_and_wait" ["-x"]).outcome = .exit 2 ∧
      (main envServing "find_infohash_and_wait" ["-x"]).outcome ≠ .exit 1 :=
  ⟨rfl, by decide, by decide⟩

/-- C1 amended: when `flag.Parse()` returns and the number of positional
arguments is not exactly 1, or the single positional argument is rejected by
`DecodeInfoHash`, `main` ends in `os.Exit(1)` and its trace holds no call of
`NewDHTNode`, `DoDHT`, `PeersRequest` or `http.ListenAndServe`. -/
theorem main_invalid_input_exits (env : Env Node) (prog : String) (argv args : List String)
    (hparse : env.FlagParse argv = .ok args)
    (h : args.length ≠ 1 ∨ ∃ a err, args = [a] ∧ env.DecodeInfoHash a = .error err) :
    (main env prog argv).outcome = .exit 1 ∧
      ∀ ev ∈ (main env prog argv).trace,
        ev.isNewDHTNode = false ∧ ev.isGoDoDHT = false ∧ ev.isPeersRequest = false ∧
          ev.isListenAndServe = false := by
  rcases h with h | ⟨a, err, rfl, h⟩
  · rw [main_usage env prog argv args hparse h]
    simp [Event.isNewDHTNode, Event.isGoDoDHT, Event.isPeersRequest, Event.isListenAndServe]
  · rw [main_decode_error env prog argv a err hparse h]
    simp [Event.isNewDHTNode, Event.isGoDoDHT, Event.isPeersRequest, Event.isListenAndServe]

/-- Witness of C1: an argument of the wrong length is turned down. -/
theorem main_invalid_input_exits_witness :
    envServing.FlagParse ["abc"] = .ok ["abc"] ∧
      (["abc"].length ≠ 1 ∨
        ∃ a err, ["abc"] = [a] ∧ envServing.DecodeInfoHash a = .error err) ∧
      (main envServing "find_infohash_and_wait" ["abc"]).outcome = .exit 1 ∧
      ∀ ev ∈ (main envServing "find_infohash_and_wait" ["abc"]).trace,
        ev.isNewDHTNode = false ∧ ev.isGoDoDHT = false ∧ ev.isPeersRequest = false ∧
          ev.isListenAndServe = false :=
  have h : ["abc"].length ≠ 1 ∨
      ∃ a err, ["abc"] = [a] ∧ envServing.DecodeInfoHash a = .error err :=
    Or.inr ⟨"abc", "DecodeInfoHash: expected InfoHash len=40", rfl, rfl⟩
  ⟨rfl, h, main_invalid_input_exits envServing "find_infohash_and_wait" ["abc"] ["abc"] rfl h⟩

/-- C2: with exactly one argument, accepted by `DecodeInfoHash`, and a node
that `NewDHTNode` created, the trace of `main` holds exactly one call of
`PeersRequest`: on that node, with the bytes of the decoded infohash and
`announce = false`. -/
theorem main_peersRequest_once (env : Env Node) (prog : String) (argv : List String)
    (a : String) (ih : InfoHash) (d : Node)
    (hparse : env.FlagParse argv = .ok [a])
    (hdec : env.DecodeInfoHash a = .ok ih)
    (hnode : env.NewDHTNode dhtPortUDP 5 false = .ok d) :
    (main env prog argv).trace.filter Event.isPeersRequest = [.peersRequest d ih.s false] := by
  rw [main_started_trace env prog argv a ih d hparse hdec hnode]
  simp [List.filter, Event.isPeersRequest]

/-- Witness of C2: the run on `sampleArg`. -/
theorem main_peersRequest_once_witness :
    envServing.FlagParse [sampleArg] = .ok [sampleArg] ∧
      envServing.DecodeInfoHash sampleArg = .ok sampleHash ∧
      envServing.NewDHTNode dhtPortUDP 5 false = .ok 11221 ∧
      (main envServing "find_infohash_and_wait" [sampleArg]).trace.filter Event.isPeersRequest =
        [.peersRequest 11221 sampleHash.s false] :=
  ⟨rfl, rfl, rfl, main_peersRequest_once envServing "find_infohash_and_wait" [sampleArg] sampleArg
    sampleHash 11221 rfl rfl rfl⟩

/-- C4, the run that breaks it: the start succeeds, `http.ListenAndServe` finds
its port taken and returns, and `main` returns instead of staying up. -/
theorem main_returns_when_server_fails :
    envBusy.FlagParse [sampleArg] = .ok [sampleArg] ∧
      envBusy.DecodeInfoHash sampleArg = .ok sampleHash ∧
      envBusy.NewDHTNode dhtPortUDP 5 false = .ok 11221 ∧
      (main envBusy "find_infohash_and_wait" [sampleArg]).outcome = .returned :=
  ⟨rfl, rfl, rfl, by decide⟩

/-- C5, the run that breaks it: on a successful start the second argument that
`main` gives to `NewDHTNode` is 5, not 100. -/
theorem main_target_is_five :
    newDHTNodeCalls (main envServing "find_infohash_and_wait" [sampleArg]).trace =
        [(11221, 5, false)] ∧
      (main envServing "find_infohash_and_wait" [sampleArg]).outcome = .blocked := by
  decide

/-- C6: once the input is accepted (one argument, decoded), the trace of `main`
holds exactly one call of `NewDHTNode`, whose first argument is 11221 and whose
third argument is `false`. -/
theorem main_newDHTNode_once (env : Env Node) (prog : String) (argv : List String)
    (a : String) (ih : InfoHash)
    (hparse : env.FlagParse argv = .ok [a])
    (hdec : env.DecodeInfoHash a = .ok ih) :
    (newDHTNodeCalls (main env prog argv).trace).map (fun c => (c.1, c.2.2)) = [(11221, false)] := by
  cases hnode : env.NewDHTNode dhtPortUDP 5 false with
  | error err =>
    rw [main_node_error env prog argv a err ih hparse hdec hnode]
    simp [newDHTNodeCalls, dhtPortUDP]
  | ok d =>
    rw [main_started_trace env prog argv a ih d hparse hdec hnode]
    simp [newDHTNodeCalls, dhtPortUDP]

/-- Witness of C6: the run on `sampleArg`. -/
theorem main_newDHTNode_once_witness :
    envServing.FlagParse [sampleArg] = .ok [sampleArg] ∧
      envServing.DecodeInfoHash sampleArg = .ok sampleHash ∧
      (newDHTNodeCalls (main envServing "find_infohash_and_wait" [sampleArg]).trace).map
        (fun c => (c.1, c.2.2)) = [(11221, false)] :=
  ⟨rfl, rfl, main_newDHTNode_once envServing "find_infohash_and_wait" [sampleArg] sampleArg
    sampleHash rfl rfl⟩

/-- C8: when `NewDHTNode` returns an error, `main` ends in `os.Exit(1)` and its
trace holds no start of `DoDHT` or `drainresults`, no call of `PeersRequest`
and no call of `http.ListenAndServe`. -/
theorem main_node_error_exits (env : Env Node) (prog : String) (argv : List String)
    (a err : String) (ih : InfoHash)
    (hparse : env.FlagParse argv = .ok [a])
    (hdec : env.DecodeInfoHash a = .ok ih)
    (hnode : env.NewDHTNode dhtPortUDP 5 false = .error err) :
    (main env prog argv).outcome = .exit 1 ∧
      ∀ ev ∈ (main env prog argv).trace,
        ev.isGoDoDHT = false ∧ ev.isGoDrainresults = false ∧ ev.isPeersRequest = false ∧
          ev.isListenAndServe = false := by
  rw [main_node_error env prog argv a err ih hparse hdec hnode]
  simp [Event.isGoDoDHT, Event.isGoDrainresults, Event.isPeersRequest, Event.isListenAndServe]

/-- Witness of C8: the run on `sampleArg` with a socket that cannot be bound. -/
theorem main_node_error_exits_witness :
    envNoSocket.FlagParse [sampleArg] = .ok [sampleArg] ∧
      envNoSocket.DecodeInfoHash sampleArg = .ok sampleHash ∧
      envNoSocket.NewDHTNode dhtPortUDP 5 false =
        .error "listen udp :11221: bind: address already in use" ∧
      (main envNoSocket "find_infohash_and_wait" [sampleArg]).outcome = .exit 1 ∧
      ∀ ev ∈ (main envNoSocket "find_infohash_and_wait" [sampleArg]).trace,
        ev.isGoDoDHT = false ∧ ev.isGoDrainresults = false ∧ ev.isPeersRequest = false ∧
          ev.isListenAndServe = false :=
  ⟨rfl, rfl, rfl, main_node_error_exits envNoSocket "find_infohash_and_wait" [sampleArg] sampleArg
    "listen udp :11221: bind: address already in use" sampleHash rfl rfl rfl⟩

/-- C9: on a successful start the trace of `main` holds exactly one call of
`http.ListenAndServe`, with the address ":8080" and the nil handler, and that
call comes after the one call of `PeersRequest`. -/
theorem main_listenAndServe_once (env : Env Node) (prog : String) (argv : List String)
    (a : String) (ih : InfoHash) (d : Node)
    (hparse : env.FlagParse argv = .ok [a])
    (hdec : env.DecodeInfoHash a = .ok ih)
    (hnode : env.NewDHTNode dhtPortUDP 5 false = .ok d) :
    (main env prog argv).trace.filter (fun ev => ev.isPeersRequest || ev.isListenAndServe) =
      [.peersRequest d ih.s false, .listenAndServe ":8080" none] := by
  rw [main_started_trace env prog argv a ih d hparse hdec hnode]
  simp [List.filter, Event.isPeersRequest, Event.isListenAndServe]

/-- Witness of C9: the run on `sampleArg`. -/
theorem main_listenAndServe_once_witness :
    envBusy.FlagParse [sampleArg] = .ok [sampleArg] ∧
      envBusy.DecodeInfoHash sampleArg = .ok sampleHash ∧
      envBusy.NewDHTNode dhtPortUDP 5 false = .ok 11221 ∧
      (main envBusy "find_infohash_and_wait" [sampleArg]).trace.filter
          (fun ev => ev.isPeersRequest || ev.isListenAndServe) =
        [.peersRequest 11221 sampleHash.s false, .listenAndServe ":8080" none] :=
  ⟨rfl, rfl, rfl, main_listenAndServe_once envBusy "find_infohash_and_wait" [sampleArg] sampleArg
    sampleHash 11221 rfl rfl rfl⟩

/-- C10: in every trace of `main`, a call of `PeersRequest` on a node has,
right before it and in this order, the start of `DoDHT` on that node, the start
of `drainresults` on that node, and a sleep of 5 seconds. -/
theorem main_peersRequest_preceded (env : Env Node) (prog : String) (argv : List String)
    (i : Nat) (d : Node) (ih : ByteString) (announce : Bool)
    (h : (main env prog argv).trace[i]? = some (.peersRequest d ih announce)) :
    3 ≤ i ∧ (main env prog argv).trace[i - 3]? = some (.goDoDHT d) ∧
      (main env prog argv).trace[i - 2]? = some (.goDrainresults d) ∧
      (main env prog argv).trace[i - 1]? = some (.sleep (5 * Second)) := by
  cases hparse : env.FlagParse argv with
  | error code =>
    rw [main_flag_exit env prog argv code hparse] at h
    have hi : i < 1 := lt_length_of_getElem? _ i _ h
    interval_cases i
    simp at h
  | ok args =>
    by_cases hlen : args.length = 1
    · obtain ⟨a, rfl⟩ := length_one args hlen
      cases hdec : env.DecodeInfoHash a with
      | error err =>
        rw [main_decode_error env prog argv a err hparse hdec] at h
        have hi : i < 4 := lt_length_of_getElem? _ i _ h
        interval_cases i <;> simp at h
      | ok ih0 =>
        cases hnode : env.NewDHTNode dhtPortUDP 5 false with
        | error err =>
          rw [main_node_error env prog argv a err ih0 hparse hdec hnode] at h
          have hi : i < 5 := lt_length_of_getElem? _ i _ h
          interval_cases i <;> simp at h
        | ok d0 =>
          rw [main_started_trace env prog argv a ih0 d0 hparse hdec hnode] at h ⊢
          have hi : i < 9 := lt_length_of_getElem? _ i _ h
          interval_cases i <;> simp at h
          obtain ⟨rfl, -, -⟩ := h
          simp
    · rw [main_usage env prog argv args hparse hlen] at h
      have hi : i < 4 := lt_length_of_getElem? _ i _ h
      interval_cases i <;> simp at h

/-- Witness of C10: the run on `sampleArg`, whose eighth event is the call of
`PeersRequest`. -/
theorem main_peersRequest_preceded_witness :
    (main envServing "find_infohash_and_wait" [sampleArg]).trace[7]? =
        some (.peersRequest 11221 sampleHash.s false) ∧
      3 ≤ 7 ∧
      (main envServing "find_infohash_and_wait" [sampleArg]).trace[7 - 3]? = some (.goDoDHT 11221) ∧
      (main envServing "find_infohash_and_wait" [sampleArg]).trace[7 - 2]? =
        some (.goDrainresults 11221) ∧
      (main envServing "find_infohash_and_wait" [sampleArg]).trace[7 - 1]? =
        some (.sleep (5 * Second)) :=
  ⟨by decide, main_peersRequest_preceded envServing "find_infohash_and_wait" [sampleArg] 7 11221
    sampleHash.s false (by decide)⟩

end Main

/-! ## The loop of `drainresults` -/

section Drain

variable (decode : ByteString → String)

theorem decoded_append (xs ys : List Out) : decoded (xs ++ ys) = decoded xs ++ decoded ys := by
  induction xs with
  | nil => rfl
  | cons o xs ihx => cases o <;> simp [decoded, ihx]

theorem decoded_peers (peers : List ByteString) :
    decoded ((peers.map (drainPeer decode)).flatten) = peers := by
  induction peers with
  | nil => rfl
  | cons x xs ihx => simp [drainPeer, decoded, ihx]

theorem decoded_entry (e : InfoHash × List ByteString) : decoded (drainEntry decode e) = e.2 := by
  simp [drainEntry, decoded, decoded_peers]

theorem decoded_batch (r : Batch) :
    decoded (drainBatch decode r) = (r.map Prod.snd).flatten := by
  induction r with
  | nil => rfl
  | cons e r ihr =>
    simp only [drainBatch, List.map_cons, List.flatten_cons, decoded_append, decoded_entry] at ihr ⊢
    rw [ihr]

theorem decoded_drainresults (batches : List Batch) :
    decoded (drainresults decode batches) = allPeers batches := by
  simp only [drainresults, decoded, allPeers, entries]
  induction batches with
  | nil => rfl
  | cons r rs ihb =>
    simp only [List.map_cons, List.flatten_cons, decoded_append, decoded_batch, List.map_append,
      List.flatten_append, ihb]

theorem reports_drainPeer (x : ByteString) (ys : List Out) :
    reports (drainPeer decode x ++ ys) = (x, [Arg.str (decode x)]) :: reports ys := by
  simp [drainPeer, reports]

theorem reports_peers (peers : List ByteString) (ys : List Out) :
    reports ((peers.map (drainPeer decode)).flatten ++ ys) =
      peers.map (fun x => (x, [Arg.str (decode x)])) ++ reports ys := by
  induction peers with
  | nil => rfl
  | cons x xs ihx =>
    rw [List.map_cons, List.flatten_cons, List.append_assoc, reports_drainPeer, ihx]
    rfl

theorem reports_entry (e : InfoHash × List ByteString) (ys : List Out) :
    reports (drainEntry decode e ++ ys) =
      e.2.map (fun x => (x, [Arg.str (decode x)])) ++ reports ys := by
  rw [drainEntry, List.cons_append, reports, reports_peers]
  intro x hx
  cases hx

theorem reports_batch (r : Batch) (ys : List Out) :
    reports (drainBatch decode r ++ ys) =
      ((r.map Prod.snd).flatten).map (fun x => (x, [Arg.str (decode x)])) ++ reports ys := by
  induction r with
  | nil => rfl
  | cons e r ihr =>
    simp only [drainBatch, List.map_cons, List.flatten_cons, List.append_assoc, reports_entry,
      List.map_append] at ihr ⊢
    rw [ihr]

theorem reports_drainresults (batches : List Batch) :
    reports (drainresults decode batches) =
      (allPeers batches).map (fun x => (x, [Arg.str (decode x)])) := by
  simp only [drainresults, reports, allPeers, entries]
  induction batches with
  | nil => rfl
  | cons r rs ihb =>
    simp only [List.map_cons, List.flatten_cons, reports_batch, List.map_append,
      List.flatten_append, ihb]

theorem foundOperands_append (xs ys : List Out) :
    foundOperands (xs ++ ys) = foundOperands xs ++ foundOperands ys := by
  induction xs with
  | nil => rfl
  | cons o xs ihx =>
    cases o with
    | println s => simpa [foundOperands] using ihx
    | decodePeerAddress x => simpa [foundOperands] using ihx
    | warn format args =>
      by_cases hf : format = "Found peer(s) for infohash %x:" <;>
        simp [foundOperands, hf, ihx]

theorem foundOperands_peers (peers : List ByteString) :
    foundOperands ((peers.map (drainPeer decode)).flatten) = [] := by
  induction peers with
  | nil => rfl
  | cons x xs ihx =>
    simp only [List.map_cons, List.flatten_cons, foundOperands_append, ihx, List.append_nil]
    simp [drainPeer, foundOperands]

theorem foundOperands_entry (e : InfoHash × List ByteString) :
    foundOperands (drainEntry decode e) = [[Arg.bytes e.1.s]] := by
  simp [drainEntry, foundOperands, foundOperands_peers]

theorem foundOperands_batch (r : Batch) :
    foundOperands (drainBatch decode r) = r.map (fun e => [Arg.bytes e.1.s]) := by
  induction r with
  | nil => rfl
  | cons e r ihr =>
    simp only [drainBatch, List.map_cons, List.flatten_cons, foundOperands_append,
      foundOperands_entry] at ihr ⊢
    rw [ihr]
    rfl

theorem foundOperands_drainresults (batches : List Batch) :
    foundOperands (drainresults decode batches) =
      (entries batches).map (fun e => [Arg.bytes e.1.s]) := by
  simp only [drainresults, foundOperands, entries]
  induction batches with
  | nil => rfl
  | cons r rs ihb =>
    simp only [List.map_cons, List.flatten_cons, foundOperands_append, foundOperands_batch,
      List.map_append, ihb]

theorem countP_isWarn_peers (peers : List ByteString) :
    ((peers.map (drainPeer decode)).flatten).countP Out.isWarn = 3 * peers.length := by
  induction peers with
  | nil => rfl
  | cons x xs ihx =>
    simp only [List.map_cons, List.flatten_cons, List.countP_append, ihx, List.length_cons]
    simp [drainPeer, List.countP_cons, Out.isWarn]
    omega

theorem countP_isFound_peers (peers : List ByteString) :
    ((peers.map (drainPeer decode)).flatten).countP Out.isFound = 0 := by
  induction peers with
  | nil => rfl
  | cons x xs ihx =>
    simp only [List.map_cons, List.flatten_cons, List.countP_append, ihx]
    simp [drainPeer, List.countP_cons, Out.isFound]

theorem countP_isWarn_entry (e : InfoHash × List ByteString) :
    (drainEntry decode e).countP Out.isWarn = 1 + 3 * e.2.length := by
  rw [drainEntry, List.countP_cons, countP_isWarn_peers]
  simp [Out.isWarn]
  omega

theorem countP_isFound_entry (e : InfoHash × List ByteString) :
    (drainEntry decode e).countP Out.isFound = 1 := by
  rw [drainEntry, List.countP_cons, countP_isFound_peers]
  simp [Out.isFound]

theorem countP_isWarn_batch (r : Batch) :
    (drainBatch decode r).countP Out.isWarn = (r.map fun e => 1 + 3 * e.2.length).sum := by
  induction r with
  | nil => rfl
  | cons e r ihr =>
    simp only [drainBatch, List.map_cons, List.flatten_cons, List.countP_append, List.sum_cons] at ihr ⊢
    rw [ihr, countP_isWarn_entry]

theorem countP_isFound_batch (r : Batch) :
    (drainBatch decode r).countP Out.isFound = r.length := by
  induction r with
  | nil => rfl
  | cons e r ihr =>
    simp only [drainBatch, List.map_cons, List.flatten_cons, List.countP_append, List.length_cons] at ihr ⊢
    rw [ihr, countP_isFound_entry]
    omega

theorem countP_isFound_drainresults (batches : List Batch) :
    (drainresults decode batches).countP Out.isFound = (entries batches).length := by
  simp only [drainresults, entries, List.countP_cons, Out.isFound]
  induction batches with
  | nil => rfl
  | cons r rs ihb =>
    simp only [List.map_cons, List.flatten_cons, List.countP_append, List.length_append,
      countP_isFound_batch] at ihb ⊢
    omega

theorem countP_isWarn_drainresults (batches : List Batch) :
    (drainresults decode batches).countP Out.isWarn =
      ((entries batches).map fun e => 1 + 3 * e.2.length).sum := by
  simp only [drainresults, entries, List.countP_cons, Out.isWarn]
  induction batches with
  | nil => rfl
  | cons r rs ihb =>
    simp only [List.map_cons, List.flatten_cons, List.countP_append, List.map_append,
      List.sum_append, countP_isWarn_batch] at ihb ⊢
    omega

theorem count_report (l : List ByteString) (x : ByteString) :
    (l.map (fun y => (y, [Arg.str (decode y)]))).count (x, [Arg.str (decode x)]) = l.count x := by
  induction l with
  | nil => rfl
  | cons y ys ihl =>
    by_cases hyx : y = x
    · subst hyx
      simp [ihl]
    · have hne : ((y, [Arg.str (decode y)]) == (x, [Arg.str (decode x)])) = false := by
        simp [hyx]
      have hne2 : (y == x) = false := by simp [hyx]
      rw [List.map_cons, List.count_cons, List.count_cons, ihl, hne, hne2]

/-- C3: run on any finite sequence of batches, `drainresults` logs one
"Found peer(s)" line per entry, each with the infohash of its entry as operand;
it calls `DecodePeerAddress` on the peers of all the entries of all the
batches, each occurrence once and in order, and follows each call at once by
the address line whose operand is the address decoded from that peer; and it
makes as many logger calls as the sum over the entries of
1 + 3 * (number of peers). -/
theorem drainresults_reports_every_peer (batches : List Batch) :
    (drainresults decode batches).countP Out.isFound = (entries batches).length ∧
      foundOperands (drainresults decode batches) =
        (entries batches).map (fun e => [Arg.bytes e.1.s]) ∧
      decoded (drainresults decode batches) = allPeers batches ∧
      reports (drainresults decode batches) =
        (allPeers batches).map (fun x => (x, [Arg.str (decode x)])) ∧
      (drainresults decode batches).countP Out.isWarn =
        ((entries batches).map fun e => 1 + 3 * e.2.length).sum :=
  ⟨countP_isFound_drainresults decode batches, foundOperands_drainresults decode batches,
    decoded_drainresults decode batches, reports_drainresults decode batches,
    countP_isWarn_drainresults decode batches⟩

/-- C7 fails: two batches report the same peer address for the same infohash,
and `drainresults` decodes it twice and logs it twice. -/
theorem drainresults_repeats_duplicate :
    (allPeers dupBatches).count samplePeer = 2 ∧
      (decoded (drainresults envBusy.DecodePeerAddress dupBatches)).count samplePeer = 2 ∧
      (drainresults envBusy.DecodePeerAddress dupBatches).count
          (.warn "==========================> %v" [.str (envBusy.DecodePeerAddress samplePeer)]) = 2 ∧
      (reports (drainresults envBusy.DecodePeerAddress dupBatches)).count
          (samplePeer, [.str (envBusy.DecodePeerAddress samplePeer)]) = 2 ∧
      (decoded (drainresults envBusy.DecodePeerAddress dupBatches)).count samplePeer ≠ 1 := by
  decide

/-- C7 amended: `drainresults` reports a peer address, that is, calls
`DecodePeerAddress` on it and at once logs the decoded address, as many times
as the address occurs in the batches it is given, so once when it occurs
once. -/
theorem drainresults_reports_each_occurrence (batches : List Batch) (x : ByteString) :
    (reports (drainresults decode batches)).count (x, [Arg.str (decode x)]) =
        (allPeers batches).count x ∧
      (decoded (drainresults decode batches)).count x = (allPeers batches).count x := by
  rw [reports_drainresults, decoded_drainresults]
  exact ⟨count_report decode (allPeers batches) x, rfl⟩

end Drain

end FindInfohashAndWait
